import Mathlib

set_option maxRecDepth 40000

/-!
Verification development for the nyc_taxi_mobility_explorer repository.

The repository ingests NYC yellow-taxi trip records, validates and enriches
them (scripts/importData.js), loads the taxi-zone reference table with upsert
semantics (scripts/importZones.js), and exposes a hand-written K-means
clustering engine over enriched trips (server.js, class TripClusterer).

This file gives a shallow embedding of those parts in Lean:
- JavaScript numbers are modelled as rationals; the float constant 1.60934
  is the literal rational 160934/100000.
- JavaScript Date values are modelled as integer milliseconds since the Unix
  epoch, with the timestamp format actually present in the data set
  (`YYYY-MM-DD HH:MM:SS`, with `T` also accepted) parsed as UTC.
- The zone store and the zones table are association lists keyed by
  location_id, in row order.
- `Math.random()` is modelled by an injectable stream of naturals
  `src : Nat -> Nat`; the JS expression `Math.floor(Math.random() * n)`
  becomes `src t % n` at stream position `t`, and positions are threaded in
  program order.  Unbounded rejection-sampling loops take explicit fuel.
- `Math.sqrt` in the clusterer only ever feeds comparisons, so distances are
  kept squared and every comparison bound is squared as well
  (`sqrt d < 0.001` iff `d < 1/1000000`), which is an exact refinement since
  both sides are nonnegative and squaring is strictly monotone there.
-/

namespace Taxi

/-- Rational equality decided through the `num`/`den` projections, which
(unlike the default instance chasing the irreducible `Rat` arithmetic)
evaluates by reduction, so that concrete runs of the embedded functions can
be checked with `decide`. -/
instance (priority := 2000) ratDecEqNumDen : DecidableEq ℚ := fun a b =>
  decidable_of_iff (a.num = b.num ∧ a.den = b.den)
    ⟨fun h => Rat.ext h.1 h.2, fun h => by subst h; exact ⟨rfl, rfl⟩⟩

/-- Value of a loosely-typed row field as it reaches the importers: CSV rows
carry strings (or a missing column, `undefined`), the parquet path passes
numbers and nulls through unchanged. -/
inductive JSVal where
  | null
  | str (s : String)
  | num (q : ℚ)
deriving DecidableEq, Repr

/-- Decimal digits to a natural number. -/
def digitsToNat (ds : List Char) : ℕ :=
  ds.foldl (fun a c => a * 10 + (c.toNat - 48)) 0

/-- Model of the JS `parseInt(s, 10)`: skip leading whitespace, optional
sign, then the longest leading run of decimal digits; `none` models `NaN`
(no digits found).  Trailing junk is ignored, as in JS. -/
def parseIntJS (s : String) : Option ℤ :=
  let cs := s.toList.dropWhile Char.isWhitespace
  let sign : ℤ := match cs with
    | '-' :: _ => -1
    | _ => 1
  let cs := match cs with
    | '-' :: rest => rest
    | '+' :: rest => rest
    | _ => cs
  let ds := cs.takeWhile Char.isDigit
  if ds.isEmpty then none else some (sign * digitsToNat ds)

/-- Exponent part of a JS float literal (`e`/`E`, optional sign, digits);
returns 0 when the tail does not start a well-formed exponent, matching
`parseFloat`, which then simply stops at the mantissa. -/
def parseExpJS (cs : List Char) : ℤ :=
  match cs with
  | 'e' :: rest | 'E' :: rest =>
    let sign : ℤ := match rest with
      | '-' :: _ => -1
      | _ => 1
    let rest := match rest with
      | '-' :: r => r
      | '+' :: r => r
      | _ => rest
    let ds := rest.takeWhile Char.isDigit
    if ds.isEmpty then 0 else sign * digitsToNat ds
  | _ => 0

/-- Model of the JS `parseFloat`: skip leading whitespace, optional sign,
decimal mantissa with optional fractional part, optional exponent; `none`
models `NaN` (no digits in the mantissa).  Trailing junk is ignored. -/
def parseFloatJS (s : String) : Option ℚ :=
  let cs := s.toList.dropWhile Char.isWhitespace
  let sign : ℚ := match cs with
    | '-' :: _ => -1
    | _ => 1
  let cs := match cs with
    | '-' :: rest => rest
    | '+' :: rest => rest
    | _ => cs
  let ip := cs.takeWhile Char.isDigit
  let cs1 := cs.dropWhile Char.isDigit
  let (fp, rest) := match cs1 with
    | '.' :: r => (r.takeWhile Char.isDigit, r.dropWhile Char.isDigit)
    | _ => ([], cs1)
  if ip.isEmpty ∧ fp.isEmpty then none
  else
    let mant : ℚ := (digitsToNat ip : ℚ) + (digitsToNat fp : ℚ) / (10 : ℚ) ^ fp.length
    some (sign * mant * (10 : ℚ) ^ parseExpJS rest)

/-- The `.replace(/,/g, '')` step: drop every comma (thousands separators). -/
def stripCommas (s : String) : String :=
  ⟨s.toList.filter (fun c => c ≠ ',')⟩

/-- Truncation toward zero, the JS number-to-integer behaviour of
`parseInt(String(n))` for numbers printed in plain decimal notation. -/
def ratTrunc (q : ℚ) : ℤ :=
  if q < 0 then -Rat.floor (-q) else Rat.floor q

/-- Embedding of `parseNum` (importData.js): empty/missing values fall back
to the caller-supplied default, otherwise commas are stripped and the value
is parsed with `parseFloat`; a parse failure (`NaN`) also falls back.
`none` here is the not-a-number outcome before the default is applied. -/
def parseNumVal : JSVal → Option ℚ
  | .null => none
  | .str s => if s = "" then none else parseFloatJS (stripCommas s)
  | .num q => some q

/-- Embedding of `parseIntStrict` (importData.js), analogous to
`parseNumVal` but with `parseInt(..., 10)` semantics. -/
def parseIntVal : JSVal → Option ℤ
  | .null => none
  | .str s => if s = "" then none else parseIntJS (stripCommas s)
  | .num q => some (ratTrunc q)

/-- Proleptic-Gregorian leap-year test. -/
def isLeap (y : ℤ) : Bool :=
  (y % 4 = 0 ∧ y % 100 ≠ 0) ∨ y % 400 = 0

/-- Days in a month of the proleptic Gregorian calendar. -/
def daysInMonth (y m : ℤ) : ℤ :=
  if m = 2 then (if isLeap y then 29 else 28)
  else if m = 4 ∨ m = 6 ∨ m = 9 ∨ m = 11 then 30
  else 31

/-- Days since 1970-01-01 of the civil date `y-m-d` (standard
era-decomposition formula, floor divisions throughout). -/
def daysFromCivil (y m d : ℤ) : ℤ :=
  let y' := if m ≤ 2 then y - 1 else y
  let era := Int.fdiv y' 400
  let yoe := y' - era * 400
  let mp := Int.emod (m + 9) 12
  let doy := Int.fdiv (153 * mp + 2) 5 + d - 1
  let doe := yoe * 365 + Int.fdiv yoe 4 - Int.fdiv yoe 100 + doy
  era * 146097 + doe - 719468

/-- Civil date `(y, m, d)` of a count of days since 1970-01-01 (inverse of
`daysFromCivil`). -/
def civilFromDays (z0 : ℤ) : ℤ × ℤ × ℤ :=
  let z := z0 + 719468
  let era := Int.fdiv z 146097
  let doe := z - era * 146097
  let yoe := Int.fdiv (doe - Int.fdiv doe 1460 + Int.fdiv doe 36524 - Int.fdiv doe 146096) 365
  let y := yoe + era * 400
  let doy := doe - (365 * yoe + Int.fdiv yoe 4 - Int.fdiv yoe 100)
  let mp := Int.fdiv (5 * doy + 2) 153
  let d := doy - Int.fdiv (153 * mp + 2) 5 + 1
  let m := mp + (if mp < 10 then 3 else -9)
  (if m ≤ 2 then y + 1 else y, m, d)

/-- Take exactly `n` decimal digits from the front of the character list. -/
def takeDigits (n : ℕ) (cs : List Char) : Option (ℕ × List Char) :=
  let ds := cs.take n
  if ds.length = n ∧ ds.all Char.isDigit then some (digitsToNat ds, cs.drop n)
  else none

/-- Expect one specific character at the front. -/
def expectChar (c : Char) (cs : List Char) : Option (List Char) :=
  match cs with
  | c' :: rest => if c' = c then some rest else none
  | [] => none

/-- Time-of-day tail of a timestamp: `HH:MM`, optional `:SS`, optional
`.fff` fraction; yields milliseconds past midnight. -/
def parseTimeOfDay (cs : List Char) : Option ℤ := do
  let (h, cs) ← takeDigits 2 cs
  let cs ← expectChar ':' cs
  let (mi, cs) ← takeDigits 2 cs
  let (se, ms, cs) ←
    match expectChar ':' cs with
    | none => some (0, 0, cs)
    | some cs => do
      let (se, cs) ← takeDigits 2 cs
      match expectChar '.' cs with
      | none => some (se, 0, cs)
      | some cs => do
        let (f, cs) ← takeDigits 3 cs
        some (se, f, cs)
  if cs.isEmpty ∧ h ≤ 23 ∧ mi ≤ 59 ∧ se ≤ 59 then
    some ((h * 3600 + mi * 60 + se) * 1000 + ms)
  else none

/-- Modelled subset of the JS `new Date(string)` parser, covering the
timestamp shapes this data set and repository produce:
`YYYY-MM-DD`, `YYYY-MM-DD HH:MM:SS` and `YYYY-MM-DDTHH:MM:SS`, with an
optional `.fff` fraction.  The result is milliseconds since the Unix epoch;
the date is validated against the calendar and parsed as UTC (the engine
would use the local zone for the space-separated form, which shifts every
timestamp by the same constant offset and therefore no derived duration).
`none` models an Invalid Date. -/
def parseDateMs (s : String) : Option ℤ := do
  let cs := s.toList
  let (y, cs) ← takeDigits 4 cs
  let cs ← expectChar '-' cs
  let (m, cs) ← takeDigits 2 cs
  let cs ← expectChar '-' cs
  let (d, cs) ← takeDigits 2 cs
  if 1 ≤ m ∧ m ≤ 12 ∧ 1 ≤ d ∧ (d : ℤ) ≤ daysInMonth y m then
    let dayMs := daysFromCivil y m d * 86400000
    match cs with
    | [] => some dayMs
    | c :: rest =>
      if c = ' ' ∨ c = 'T' then do
        let tod ← parseTimeOfDay rest
        some (dayMs + tod)
      else none
  else none

/-- Embedding of `parseTimestamp` (importData.js) on the string-or-missing
timestamp fields: falsy input (`undefined` or the empty string) and
unparseable input both give `null`, otherwise the epoch-millisecond value of
the parsed Date. -/
def parseTs : Option String → Option ℤ
  | none => none
  | some s => if s = "" then none else parseDateMs s

/-- JS `Math.round`: round half toward positive infinity. -/
def jsRound (q : ℚ) : ℤ := Rat.floor (q + 1 / 2)

/-! ## Zone store (scripts/importData.js `loadZoneMap`, scripts/importZones.js) -/

/-- One zone record as held in the zones table and in the in-memory zone
lookup map: `borough`, `zone`, `service_zone`.  importZones.js only ever
inserts trimmed strings, so the fields are plain strings. -/
structure ZoneRec where
  borough : String
  zone : String
  service_zone : String
deriving DecidableEq, Repr

/-- The zone store: rows keyed by `location_id`, in row order.  Models both
the `zones` table and the `Map` built by `loadZoneMap`. -/
abbrev ZMap := List (ℤ × ZoneRec)

/-- JS `zoneMap.has(id)`. -/
def zmHas (zm : ZMap) (i : ℤ) : Bool :=
  zm.any (fun e => decide (e.1 = i))

/-- JS `zoneMap.get(id)` (first row with the key; keys are unique in a
`Map` and deduplicated by the upsert in the table). -/
def zmGet (zm : ZMap) (i : ℤ) : Option ZoneRec :=
  (zm.find? (fun e => decide (e.1 = i))).map Prod.snd

/-! ## Raw trip rows and the validator (scripts/importData.js) -/

/-- A raw trip row as seen by `isValidTrip`/`enrich`.  CSV rows carry
strings (missing column = `.null`); the parquet path passes native values
through for most fields but always converts the two timestamps and
`store_and_fwd_flag` to strings first (`rowFromParquetRecord`), so those
three fields are `Option String`. -/
structure Row where
  VendorID : JSVal
  tpep_pickup_datetime : Option String
  tpep_dropoff_datetime : Option String
  passenger_count : JSVal
  trip_distance : JSVal
  RatecodeID : JSVal
  store_and_fwd_flag : Option String
  PULocationID : JSVal
  DOLocationID : JSVal
  payment_type : JSVal
  fare_amount : JSVal
  extra : JSVal
  mta_tax : JSVal
  tip_amount : JSVal
  tolls_amount : JSVal
  improvement_surcharge : JSVal
  total_amount : JSVal
  congestion_surcharge : JSVal
deriving DecidableEq, Repr

/-- The closed enumeration of rejection reason codes. -/
inductive Reason where
  | invalid_or_unknown_zone
  | invalid_timestamp
  | duration_out_of_range
  | invalid_passenger_count
  | trip_distance_out_of_range
  | fare_out_of_range
  | total_amount_out_of_range
deriving DecidableEq, Repr

/-- The normalized-field object returned by `isValidTrip` on success (the
`{ ok: true, durationSec, ..., row }` literal).  The JS key `do` is named
`doLoc` here (`do` is reserved in Lean as in newer JS). -/
structure Ctx where
  durationSec : ℤ
  tripDistance : ℚ
  fareAmount : ℚ
  totalAmount : ℚ
  pu : ℤ
  doLoc : ℤ
  pickup : ℤ
  dropoff : ℤ
  passengers : ℤ
  row : Row
deriving DecidableEq, Repr

/-- Result of the validator: `{ ok: false, reason }` or `{ ok: true, ... }`. -/
inductive VResult where
  | rejected (reason : Reason)
  | accepted (ctx : Ctx)
deriving DecidableEq, Repr

/-- Embedding of `isValidTrip` (importData.js lines 74-92).  The JS code
first computes the two ids with `parseIntStrict(_, NaN)` and checks
`zoneMap.has` on them; a `NaN` id can never be a `Map` key, which the match
below expresses by sending unparseable ids straight to the zone failure.
The zone map is an argument here (the module-global `zoneMap`, loaded once
before streaming begins; its `!zoneMap` null-guard folds into the same
reason code and is dropped because every call site loads the map first). -/
def isValidTrip (zm : ZMap) (row : Row) : VResult :=
  match parseIntVal row.PULocationID, parseIntVal row.DOLocationID with
  | some pu, some doLoc =>
    if zmHas zm pu ∧ zmHas zm doLoc then
      match parseTs row.tpep_pickup_datetime, parseTs row.tpep_dropoff_datetime with
      | some pickup, some dropoff =>
        let durationSec := jsRound (((dropoff : ℚ) - (pickup : ℚ)) / 1000)
        if durationSec < 60 ∨ 86400 < durationSec then .rejected .duration_out_of_range
        else
          let passengers := (parseIntVal row.passenger_count).getD (-1)
          if passengers < 0 ∨ 9 < passengers then .rejected .invalid_passenger_count
          else
            let tripDistance := (parseNumVal row.trip_distance).getD (-1)
            if tripDistance < 0 ∨ 500 < tripDistance then .rejected .trip_distance_out_of_range
            else
              let fareAmount := (parseNumVal row.fare_amount).getD (-1)
              if fareAmount < 0 ∨ 10000 < fareAmount then .rejected .fare_out_of_range
              else
                let totalAmount := (parseNumVal row.total_amount).getD (-1)
                if totalAmount < 0 ∨ 10000 < totalAmount then .rejected .total_amount_out_of_range
                else .accepted
                  ⟨durationSec, tripDistance, fareAmount, totalAmount,
                   pu, doLoc, pickup, dropoff, passengers, row⟩
      | _, _ => .rejected .invalid_timestamp
    else .rejected .invalid_or_unknown_zone
  | _, _ => .rejected .invalid_or_unknown_zone

/-! ## Feature enricher (scripts/importData.js `enrich`) -/

/-- The constant `MILES_TO_KM = 1.60934`. -/
def MILES_TO_KM : ℚ := 160934 / 100000

/-- The batch threshold `BATCH_SIZE = 2000`. -/
def BATCH_SIZE : ℕ := 2000

/-- Embedding of `(row.store_and_fwd_flag || 'N').toString().trim().charAt(0) || null`:
falsy (missing or empty) defaults to `"N"`, then the first character of the
trimmed string, or `null` when trimming leaves nothing. -/
def sfFlag (v : Option String) : Option Char :=
  let s := match v with
    | none => "N"
    | some s => if s = "" then "N" else s
  s.trim.toList.head?

/-- Embedding of `getHourFromTimestamp`: the fast path matches the regex
`^\d{4}-\d{2}-\d{2}\s(\d{1,2}):` on the trimmed string and returns that
hour mod 24; otherwise fall back to `new Date(val)` and its hour field
(UTC here, see `parseDateMs`), with 0 for missing or invalid input. -/
def regexHour (cs : List Char) : Option ℤ := do
  let (_, cs) ← takeDigits 4 cs
  let cs ← expectChar '-' cs
  let (_, cs) ← takeDigits 2 cs
  let cs ← expectChar '-' cs
  let (_, cs) ← takeDigits 2 cs
  match cs with
  | w :: rest =>
    if w.isWhitespace then
      let ds := rest.takeWhile Char.isDigit
      if (ds.length = 1 ∨ ds.length = 2) ∧ (rest.drop ds.length).head? = some ':' then
        some (digitsToNat ds)
      else none
    else none
  | [] => none

def getHourFromTimestamp (v : Option String) : ℤ :=
  match v with
  | none => 0
  | some s0 =>
    if s0 = "" then 0
    else
      match regexHour s0.trim.toList with
      | some h => Int.emod h 24
      | none =>
        match parseDateMs s0 with
        | some ms => Int.emod (Int.fdiv ms 3600000) 24
        | none => 0

/-- Embedding of `getDayMonthFromTimestamp`: `{ day: 0, month: 1 }` for
missing or invalid input, else the weekday (0 = Sunday) and 1-based month
of the parsed Date. -/
def getDayMonthFromTimestamp (v : Option String) : ℤ × ℤ :=
  match v with
  | none => (0, 1)
  | some s =>
    if s = "" then (0, 1)
    else
      match parseDateMs s with
      | none => (0, 1)
      | some ms =>
        let days := Int.fdiv ms 86400000
        (Int.emod (days + 4) 7, (civilFromDays days).2.1)

/-- The persisted trip shape produced by `enrich`. -/
structure Trip where
  vendor_id : Option ℤ
  tpep_pickup_datetime : ℤ
  tpep_dropoff_datetime : ℤ
  passenger_count : ℤ
  trip_distance : ℚ
  rate_code_id : Option ℤ
  store_and_fwd_flag : Option Char
  pu_location_id : ℤ
  do_location_id : ℤ
  payment_type : Option ℤ
  fare_amount : ℚ
  extra : ℚ
  mta_tax : ℚ
  tip_amount : ℚ
  tolls_amount : ℚ
  improvement_surcharge : ℚ
  total_amount : ℚ
  congestion_surcharge : ℚ
  trip_duration_sec : ℤ
  speed_kmh : ℚ
  fare_per_km : ℚ
  tip_rate : ℚ
  hour_of_day : ℤ
  day_of_week : ℤ
  month : ℤ
  pickup_borough : String
  dropoff_borough : String
  trip_type : String
deriving DecidableEq

/-- Embedding of `enrich(row, ctx)` (importData.js lines 94-139).  The JS
truthiness tests `pickupBorough && dropoffBorough` on strings are
non-emptiness tests. -/
def enrich (zm : ZMap) (row : Row) (ctx : Ctx) : Trip :=
  let tipAmount := (parseNumVal row.tip_amount).getD 0
  let totalAmount := ctx.totalAmount
  let tipRate := if totalAmount > 0 then tipAmount / totalAmount else 0
  let distanceKm := ctx.tripDistance * MILES_TO_KM
  let durationHours := (ctx.durationSec : ℚ) / 3600
  let speedKmh := if durationHours > 0 then distanceKm / durationHours else 0
  let farePerKm := if distanceKm > 0 then ctx.fareAmount / distanceKm else 0
  let pickupBorough := match zmGet zm ctx.pu with
    | some z => z.borough
    | none => ""
  let dropoffBorough := match zmGet zm ctx.doLoc with
    | some z => z.borough
    | none => ""
  let tripType :=
    if pickupBorough ≠ "" ∧ dropoffBorough ≠ "" ∧ pickupBorough ≠ dropoffBorough
    then "Cross Borough" else "Within Borough"
  let dm := getDayMonthFromTimestamp row.tpep_pickup_datetime
  { vendor_id := parseIntVal row.VendorID
    tpep_pickup_datetime := ctx.pickup
    tpep_dropoff_datetime := ctx.dropoff
    passenger_count := ctx.passengers
    trip_distance := ctx.tripDistance
    rate_code_id := parseIntVal row.RatecodeID
    store_and_fwd_flag := sfFlag row.store_and_fwd_flag
    pu_location_id := ctx.pu
    do_location_id := ctx.doLoc
    payment_type := parseIntVal row.payment_type
    fare_amount := ctx.fareAmount
    extra := (parseNumVal row.extra).getD 0
    mta_tax := (parseNumVal row.mta_tax).getD 0
    tip_amount := tipAmount
    tolls_amount := (parseNumVal row.tolls_amount).getD 0
    improvement_surcharge := (parseNumVal row.improvement_surcharge).getD 0
    total_amount := totalAmount
    congestion_surcharge := (parseNumVal row.congestion_surcharge).getD 0
    trip_duration_sec := ctx.durationSec
    speed_kmh := min 200 speedKmh
    fare_per_km := farePerKm
    tip_rate := tipRate
    hour_of_day := getHourFromTimestamp row.tpep_pickup_datetime
    day_of_week := dm.1
    month := dm.2
    pickup_borough := pickupBorough
    dropoff_borough := dropoffBorough
    trip_type := tripType }

/-! ## Ingestion run loop (scripts/importData.js `importFromCsv` / `importFromParquet`) -/

/-- Run state of one ingestion: the three counters, the current batch, and
the batches flushed to the store so far.  `importFromCsv` and
`importFromParquet` share this counting/batching structure line for line;
they differ only in how each raw record is produced upstream, so both are
modelled by `ingestRows` over the already-converted row list. -/
structure IngestState where
  processed : ℕ
  valid : ℕ
  invalid : ℕ
  batch : List Trip
  flushed : List (List Trip)

/-- One row of the streaming loop body: count it, validate, and either
count the rejection or enrich, append to the batch, and flush a full batch. -/
def ingestStep (zm : ZMap) (st : IngestState) (row : Row) : IngestState :=
  let st := { st with processed := st.processed + 1 }
  match isValidTrip zm row with
  | .rejected _ => { st with invalid := st.invalid + 1 }
  | .accepted ctx =>
    let batch := st.batch ++ [enrich zm row ctx]
    if BATCH_SIZE ≤ batch.length then
      { st with valid := st.valid + 1, batch := [], flushed := st.flushed ++ [batch] }
    else
      { st with valid := st.valid + 1, batch := batch }

/-- The whole run: fold the loop body over the stream, then flush the final
partial batch at end-of-stream if it is non-empty. -/
def ingestRows (zm : ZMap) (rows : List Row) : IngestState :=
  let fin := rows.foldl (ingestStep zm) ⟨0, 0, 0, [], []⟩
  if fin.batch = [] then fin
  else { fin with batch := [], flushed := fin.flushed ++ [fin.batch] }

/-! ## Zone ingestion (scripts/importZones.js `loadZonesFromLookup`) -/

/-- One parsed CSV row of `taxi_zone_lookup.csv` (string columns; `none`
is a missing column). -/
structure LookupRow where
  LocationID : Option String
  Borough : Option String
  Zone : Option String
  service_zone : Option String
deriving DecidableEq, Repr

/-- The `(row.X || '').trim()` normalization on a string column. -/
def strField (v : Option String) : String := (v.getD "").trim

/-- The SQL `INSERT ... ON CONFLICT (location_id) DO UPDATE` on the zones
table: if a row with the key exists it is updated in place, otherwise the
new row is appended. -/
def upsertZone (tbl : List (ℤ × ZoneRec)) (id : ℤ) (z : ZoneRec) : List (ℤ × ZoneRec) :=
  if tbl.any (fun e => decide (e.1 = id)) then
    tbl.map (fun e => if e.1 = id then (id, z) else e)
  else tbl ++ [(id, z)]

/-- Per-row work of `loadZonesFromLookup`: `parseInt(row.LocationID, 10)`,
skip on `NaN`, else upsert the trimmed fields. -/
def applyLookupRow (tbl : List (ℤ × ZoneRec)) (r : LookupRow) : List (ℤ × ZoneRec) :=
  match r.LocationID.bind parseIntJS with
  | none => tbl
  | some id => upsertZone tbl id ⟨strField r.Borough, strField r.Zone, strField r.service_zone⟩

/-- Embedding of `loadZonesFromLookup` (importZones.js lines 37-61): upsert
every row with a numeric `LocationID` into the zones table, then return the
table and the function result `rows.length`. -/
def loadZonesFromLookup (tbl : List (ℤ × ZoneRec)) (rows : List LookupRow) :
    List (ℤ × ZoneRec) × ℕ :=
  (rows.foldl applyLookupRow tbl, rows.length)

/-! ## K-means clustering engine (server.js, class TripClusterer) -/

/-- A clustering point: the three numeric dimensions read by
`calculateDistance` (`lat`, `lon`, `duration`), plus a pass-through tag
standing for the remaining row attributes that ride along unchanged
(`distance_km`, `speed_kmh`, `pickup_borough`, `hour_of_day`).  The rows
come out of the database already numeric, so the defensive
`parseFloat(x) || 0` coercions are identities here. -/
structure CPoint where
  lat : ℚ
  lon : ℚ
  duration : ℚ
  tag : ℕ
deriving DecidableEq, Repr

/-- A centroid holds just the three averaged dimensions, as produced by the
update step (`{ lat: avgLat, lon: avgLon, duration: avgDuration }`). -/
structure Centroid where
  lat : ℚ
  lon : ℚ
  duration : ℚ
deriving DecidableEq, Repr

/-- Projection of a point to its three distance dimensions; initial and
reseeded centroids are point copies, of which `calculateDistance` only ever
reads these three fields. -/
def toCentroid (p : CPoint) : Centroid := ⟨p.lat, p.lon, p.duration⟩

/-- Squared form of `calculateDistance`: latitude difference, longitude
difference, and duration difference scaled by 1000, summed as squares.  The
JS code takes `Math.sqrt` of this; every use compares distances (argmin and
a `< 0.001` test), so the monotone square root is dropped and the 0.001
convergence bound is squared at its use site. -/
def dist2 (a b : Centroid) : ℚ :=
  let latDiff := a.lat - b.lat
  let lonDiff := a.lon - b.lon
  let durationDiff := (a.duration - b.duration) / 1000
  latDiff * latDiff + lonDiff * lonDiff + durationDiff * durationDiff

/-- Index of the first minimum of a distance list, the behaviour of
`distances.indexOf(Math.min(...distances))`; 0 on the empty list (which the
JS guard `nearestIndex >= 0` would drop, but the engine never builds an
empty centroid list on the path that reaches it). -/
def argminAux : List ℚ → ℚ → ℕ → ℕ → ℕ
  | [], _, _, best => best
  | x :: xs, m, i, best =>
    if x < m then argminAux xs x (i + 1) i else argminAux xs m (i + 1) best

def argminFirst : List ℚ → ℕ
  | [] => 0
  | x :: xs => argminAux xs x 1 0

/-- The assignment step: each point goes to the cluster of its nearest
centroid (first centroid wins ties), appended in input order.  `k` is the
number of cluster slots (`Array(k).fill().map(() => [])`). -/
def assignPoints (centroids : List Centroid) (k : ℕ) (data : List CPoint) :
    List (List CPoint) :=
  data.foldl
    (fun cls p =>
      let dists := centroids.map (fun c => dist2 (toCentroid p) c)
      let ni := argminFirst dists
      if h : ni < cls.length then cls.set ni (cls.get ⟨ni, h⟩ ++ [p]) else cls)
    (List.replicate k [])

/-- The update step: componentwise mean per non-empty cluster; an empty
cluster is reseeded with a copy of a random input point as its next
centroid.  The random-stream position is threaded left to right as the JS
`clusters.map` evaluates its reseeding `Math.random()` calls in order. -/
def updateCentroids (src : ℕ → ℕ) (data : List CPoint)
    (clusters : List (List CPoint)) (t0 : ℕ) : List Centroid × ℕ :=
  clusters.foldl
    (fun st cluster =>
      match cluster with
      | [] => (st.1 ++ [toCentroid (data.getD (src st.2 % data.length) ⟨0, 0, 0, 0⟩)], st.2 + 1)
      | _ :: _ =>
        let n : ℚ := cluster.length
        (st.1 ++ [⟨(cluster.map CPoint.lat).sum / n,
                   (cluster.map CPoint.lon).sum / n,
                   (cluster.map CPoint.duration).sum / n⟩], st.2))
    ([], t0)

/-- The iteration loop of `kMeans`: assign, update, stop early once every
centroid moved less than 0.001 (squared: `1/1000000`), else continue with
the new centroids.  The `clusters` argument is the variable initialized to
`[]` before the loop, which is what the function returns when
`maxIterations` iterations never run. -/
def kMeansLoop (src : ℕ → ℕ) (data : List CPoint) (k : ℕ) :
    ℕ → List Centroid → List (List CPoint) → ℕ → List (List CPoint)
  | 0, _, clusters, _ => clusters
  | iter + 1, centroids, _, t =>
    let clusters := assignPoints centroids k data
    let upd := updateCentroids src data clusters t
    let converged := (List.zip centroids upd.1).all
      (fun cc => decide (dist2 cc.1 cc.2 < 1 / 1000000))
    if converged then clusters
    else kMeansLoop src data k iter upd.1 clusters upd.2

/-- One attempt-bounded round of the do-while rejection sampling in
`initializeCentroids`: draw `src t % n` until the index is unused; `none`
when `fuel` attempts were not enough (the JS loop just keeps drawing). -/
def pickFresh (src : ℕ → ℕ) (n : ℕ) (used : List ℕ) : ℕ → ℕ → Option (ℕ × ℕ)
  | 0, _ => none
  | fuel + 1, t =>
    if src t % n ∈ used then pickFresh src n used fuel (t + 1)
    else some (src t % n, t + 1)

/-- The `for (let i = 0; i < k; i++)` loop of `initializeCentroids`,
collecting copies of the points at the freshly drawn distinct indices and
returning the advanced stream position. -/
def initCentroidsAux (src : ℕ → ℕ) (data : List CPoint) (fuel : ℕ) :
    ℕ → List ℕ → ℕ → Option (List CPoint × ℕ)
  | 0, _, t => some ([], t)
  | k + 1, used, t =>
    match pickFresh src data.length used fuel t with
    | none => none
    | some (idx, t1) =>
      match initCentroidsAux src data fuel k (idx :: used) t1 with
      | none => none
      | some (cs, t2) => some (data.getD idx ⟨0, 0, 0, 0⟩ :: cs, t2)

/-- Embedding of `initializeCentroids(data, k)` (the source name contains a
word this development cannot use as an identifier): choose `k` distinct
random indices by rejection sampling and return copies of those points. -/
def initCentroids (src : ℕ → ℕ) (data : List CPoint) (k : ℕ) (fuel : ℕ) :
    Option (List CPoint × ℕ) :=
  initCentroidsAux src data fuel k [] 0

/-- Embedding of `kMeans(data, k, maxIterations = 100)` (server.js lines
29-72): empty input gives an empty result; `k <= 0` or `k > data.length`
returns the whole input as the single cluster; otherwise run the iteration
loop from the random initial centroids and drop empty clusters at the end.
`none` only when `fuel` attempts per draw did not complete the unbounded
rejection-sampling loop. -/
def kMeans (src : ℕ → ℕ) (data : List CPoint) (k : ℤ) (maxIterations : ℕ)
    (fuel : ℕ) : Option (List (List CPoint)) :=
  if data.length = 0 then some []
  else if k ≤ 0 ∨ (data.length : ℤ) < k then some [data]
  else
    match initCentroids src data k.toNat fuel with
    | none => none
    | some (cs, t) =>
      some ((kMeansLoop src data k.toNat maxIterations (cs.map toCentroid) [] t).filter
        (fun c => !c.isEmpty))

/-- The non-empty clusters induced by assigning every point to its nearest
initial random centroid — the "initial random assignment" the spec speaks
about for `maxIterations = 0`. -/
def initialAssignment (src : ℕ → ℕ) (data : List CPoint) (k : ℕ) (fuel : ℕ) :
    Option (List (List CPoint)) :=
  (initCentroids src data k fuel).map
    (fun ct => (assignPoints (ct.1.map toCentroid) k data).filter (fun c => !c.isEmpty))

/-! ## Spec-side formulation of the validation checks (spec section 4.2)

The seven checks below are written as independent total predicates over one
raw row plus the zone store, following the words of the specification; the
short-circuit theorem for C1 compares `isValidTrip` against the first
failing entry of the ordered list. -/

/-- Check 1, `invalid_or_unknown_zone`: pickup or dropoff zone id missing,
non-numeric, or absent from the zone store. -/
def zoneCheckFails (zm : ZMap) (row : Row) : Bool :=
  match parseIntVal row.PULocationID, parseIntVal row.DOLocationID with
  | some pu, some doLoc => !(zmHas zm pu && zmHas zm doLoc)
  | _, _ => true

/-- Check 2, `invalid_timestamp`: pickup or dropoff timestamp missing or
unparseable. -/
def timestampCheckFails (row : Row) : Bool :=
  !((parseTs row.tpep_pickup_datetime).isSome && (parseTs row.tpep_dropoff_datetime).isSome)

/-- The rounded duration in seconds, when both timestamps parse. -/
def rowDuration (row : Row) : Option ℤ :=
  match parseTs row.tpep_pickup_datetime, parseTs row.tpep_dropoff_datetime with
  | some p, some d => some (jsRound (((d : ℚ) - (p : ℚ)) / 1000))
  | _, _ => none

/-- Check 3, `duration_out_of_range`: (dropoff − pickup) in seconds,
rounded to the nearest integer, outside [60, 86400]. -/
def durationCheckFails (row : Row) : Bool :=
  match rowDuration row with
  | some s => decide (s < 60 ∨ 86400 < s)
  | none => false

/-- Check 4, `invalid_passenger_count`: passenger count missing, negative,
or above 9 (missing and unparseable both default to the sentinel −1). -/
def passengerCheckFails (row : Row) : Bool :=
  let p := (parseIntVal row.passenger_count).getD (-1)
  decide (p < 0 ∨ 9 < p)

/-- Check 5, `trip_distance_out_of_range`: distance negative or above 500. -/
def distanceCheckFails (row : Row) : Bool :=
  let q := (parseNumVal row.trip_distance).getD (-1)
  decide (q < 0 ∨ 500 < q)

/-- Check 6, `fare_out_of_range`: fare negative or above 10000. -/
def fareCheckFails (row : Row) : Bool :=
  let q := (parseNumVal row.fare_amount).getD (-1)
  decide (q < 0 ∨ 10000 < q)

/-- Check 7, `total_amount_out_of_range`: total negative or above 10000. -/
def totalCheckFails (row : Row) : Bool :=
  let q := (parseNumVal row.total_amount).getD (-1)
  decide (q < 0 ∨ 10000 < q)

/-- The fixed check order of spec section 4.2. -/
def checksInOrder (zm : ZMap) (row : Row) : List (Bool × Reason) :=
  [(zoneCheckFails zm row, .invalid_or_unknown_zone),
   (timestampCheckFails row, .invalid_timestamp),
   (durationCheckFails row, .duration_out_of_range),
   (passengerCheckFails row, .invalid_passenger_count),
   (distanceCheckFails row, .trip_distance_out_of_range),
   (fareCheckFails row, .fare_out_of_range),
   (totalCheckFails row, .total_amount_out_of_range)]

/-- Reason code of the first failing check, `none` when every check passes. -/
def firstFailure (zm : ZMap) (row : Row) : Option Reason :=
  ((checksInOrder zm row).find? Prod.fst).map Prod.snd

/-- Borough of a zone id as the enricher looks it up: empty string when the
zone is absent or has no borough. -/
def boroughOf (zm : ZMap) (i : ℤ) : String :=
  match zmGet zm i with
  | some z => z.borough
  | none => ""

/-! ## Concrete fixtures for witnesses and counterexamples -/

/-- Zone store of the end-to-end scenario in spec section 8:
`{1: Manhattan, 2: Queens}`. -/
def zmEx : ZMap :=
  [(1, ⟨"Manhattan", "Midtown", "Yellow Zone"⟩),
   (2, ⟨"Queens", "Astoria", "Boro Zone"⟩)]

/-- The raw row of the spec section 8 scenario: pickup zone 1, dropoff
zone 2, 08:00 to 08:20 on 2024-01-01, 5 miles, fare 20, total 25, tip 5,
one passenger. -/
def rowEx : Row :=
  { VendorID := .str "2"
    tpep_pickup_datetime := some "2024-01-01 08:00:00"
    tpep_dropoff_datetime := some "2024-01-01 08:20:00"
    passenger_count := .str "1"
    trip_distance := .str "5"
    RatecodeID := .str "1"
    store_and_fwd_flag := some "N"
    PULocationID := .str "1"
    DOLocationID := .str "2"
    payment_type := .str "1"
    fare_amount := .str "20"
    extra := .str "0"
    mta_tax := .str "0.5"
    tip_amount := .str "5"
    tolls_amount := .str "0"
    improvement_surcharge := .str "0.3"
    total_amount := .str "25"
    congestion_surcharge := .str "2.5" }

/-- The same row with dropoff 30 seconds after pickup (the exclusion
scenario of spec section 8). -/
def rowShort : Row :=
  { rowEx with tpep_dropoff_datetime := some "2024-01-01 08:00:30" }

/-- The normalized-field object `isValidTrip zmEx rowEx` produces
(epoch milliseconds computed by `parseDateMs`). -/
def ctxEx : Ctx :=
  ⟨1200, 5, 20, 25, 1, 2, 1704096000000, 1704097200000, 1, rowEx⟩

/-- A random stream that always draws 0. -/
def srcZero : ℕ → ℕ := fun _ => 0

/-- The random stream 0, 1, 2, ... -/
def srcNat : ℕ → ℕ := fun t => t

/-- Two distinct clustering points. -/
def pA : CPoint := ⟨0, 0, 0, 0⟩

def pB : CPoint := ⟨1, 0, 0, 1⟩

/-- A lookup row whose `LocationID` is non-numeric. -/
def badLookupRow : LookupRow :=
  { LocationID := some "N/A", Borough := some "Unknown", Zone := some "NV",
    service_zone := some "N/A" }

/-- Termination predicate for the rejection sampling of the centroid
initializer: some attempt bound suffices. -/
def initTerminates (src : ℕ → ℕ) (data : List CPoint) (k : ℕ) : Prop :=
  ∃ fuel cs t, initCentroids src data k fuel = some (cs, t)

/- The Batteries rational-number operations are `@[irreducible]`, which
blocks `decide`-style evaluation of the embedded functions on concrete
inputs; restore default reducibility locally for this development. -/
attribute [local semireducible] Rat.add Rat.sub Rat.mul Rat.inv Rat.ofScientific

/-! ## Theorems -/

/-- C4: `kMeans(points, k, maxIterations)` returns the empty list whenever
`points` is empty, and whenever `k <= 0` or `k > points.length` (with
`points` non-empty) it returns exactly one cluster whose members are the
entire input point set in order. -/
theorem c4_kmeans_degenerate (src : ℕ → ℕ) (data : List CPoint) (k : ℤ) (m fuel : ℕ) :
    kMeans src [] k m fuel = some [] ∧
    (data ≠ [] → (k ≤ 0 ∨ (data.length : ℤ) < k) → kMeans src data k m fuel = some [data]) := by
  constructor
  · rfl
  · intro hne hk
    unfold kMeans
    rw [if_neg (by simpa using hne), if_pos hk]

/-- C4 witness: both degenerate branches evaluated on concrete input. -/
theorem c4_witness :
    kMeans srcZero ([] : List CPoint) 3 100 5 = some [] ∧
    kMeans srcZero [pA] 0 100 5 = some [[pA]] :=
  ⟨(c4_kmeans_degenerate srcZero [pA] 3 100 5).1,
   (c4_kmeans_degenerate srcZero [pA] 0 100 5).2 (by decide)
     (Or.inl (by decide))⟩

/-- C5 counterexample: at `k = points.length` (2 distinct points, k = 2)
the engine runs the refinement loop and returns two singleton clusters,
not one cluster containing the entire input set. -/
theorem c5_cex :
    kMeans srcNat [pA, pB] 2 100 4 = some [[pA], [pB]] ∧
    ([[pA], [pB]] : List (List CPoint)).length ≠ 1 := by decide

/-- C5 amended: for every non-empty point set and every `k` strictly
greater than `points.length`, `kMeans` returns exactly one cluster
containing the entire input set. -/
theorem c5_amended (src : ℕ → ℕ) (data : List CPoint) (k : ℤ) (m fuel : ℕ)
    (hne : data ≠ []) (hk : (data.length : ℤ) < k) :
    kMeans src data k m fuel = some [data] := by
  unfold kMeans
  rw [if_neg (by simpa using hne), if_pos (Or.inr hk)]

/-- C5 witness: two points, `k = 3`. -/
theorem c5_witness : kMeans srcZero [pA, pB] 3 100 5 = some [[pA, pB]] :=
  c5_amended srcZero [pA, pB] 3 100 5 (by decide) (by decide)

/-- C6 counterexample: with `maxIterations = 0` the loop never runs and
`kMeans` returns the empty list (the `clusters = []` initialization), not
the initial random assignment, which here would be the one cluster
`[[pA]]`. -/
theorem c6_cex :
    kMeans srcZero [pA] 1 0 1 = some [] ∧
    initialAssignment srcZero [pA] 1 1 = some [[pA]] ∧
    (some ([] : List (List CPoint)) = some [[pA]] → False) := by decide

/-- C6 amended: for every non-empty point set and `1 ≤ k ≤ points.length`,
calling `kMeans` with `maxIterations = 0` performs no assignment at all and
returns the empty cluster list (the initial random assignment is computed
by `maxIterations = 1`, not 0). -/
theorem c6_amended (src : ℕ → ℕ) (data : List CPoint) (k : ℤ) (fuel : ℕ)
    (cs : List CPoint) (t : ℕ)
    (hne : data ≠ []) (hk1 : 1 ≤ k) (hkn : k ≤ (data.length : ℤ))
    (hinit : initCentroids src data k.toNat fuel = some (cs, t)) :
    kMeans src data k 0 fuel = some [] := by
  unfold kMeans
  rw [if_neg (by simpa using hne), if_neg (by omega)]
  rw [hinit]
  rfl

/-- C6 witness: one point, `k = 1`, `maxIterations = 0`. -/
theorem c6_witness :
    initCentroids srcZero [pA] (1 : ℤ).toNat 1 = some ([pA], 1) ∧
    kMeans srcZero [pA] 1 0 1 = some [] :=
  ⟨by decide,
   c6_amended srcZero [pA] 1 1 [pA] 1 (by decide) (by decide) (by decide)
     (by decide)⟩

/-- A successful draw of the rejection sampler is a fresh, in-range index. -/
theorem pickFresh_spec (src : ℕ → ℕ) (n : ℕ) (used : List ℕ) (fuel t idx t' : ℕ)
    (h : pickFresh src n used fuel t = some (idx, t')) :
    idx ∉ used ∧ (0 < n → idx < n) := by
  induction fuel generalizing t with
  | zero => simp [pickFresh] at h
  | succ fuel ih =>
    unfold pickFresh at h
    split at h
    · exact ih _ h
    · rename_i hmem
      obtain ⟨rfl, rfl⟩ : src t % n = idx ∧ t + 1 = t' := by simpa using h
      exact ⟨hmem, fun hn => Nat.mod_lt _ hn⟩

/-- When the initializer loop completes, the collected centroids are copies
of the points at pairwise distinct indices avoiding the used set. -/
theorem initCentroidsAux_spec (src : ℕ → ℕ) (data : List CPoint) (fuel : ℕ) :
    ∀ (k : ℕ) (used : List ℕ) (t : ℕ) (cs : List CPoint) (t2 : ℕ),
      initCentroidsAux src data fuel k used t = some (cs, t2) →
      ∃ idxs : List ℕ, idxs.length = k ∧ idxs.Nodup ∧ (∀ i ∈ idxs, i ∉ used) ∧
        (0 < data.length → ∀ i ∈ idxs, i < data.length) ∧
        cs = idxs.map (fun i => data.getD i ⟨0, 0, 0, 0⟩) := by
  intro k
  induction k with
  | zero =>
    intro used t cs t2 h
    rw [show initCentroidsAux src data fuel 0 used t = some ([], t) from rfl] at h
    obtain ⟨rfl, rfl⟩ : ([] : List CPoint) = cs ∧ t = t2 := by simpa using h
    exact ⟨[], rfl, List.nodup_nil, by simp, by simp, rfl⟩
  | succ k ih =>
    intro used t cs t2 h
    cases hp : pickFresh src data.length used fuel t with
    | none => simp [initCentroidsAux, hp] at h
    | some p =>
      obtain ⟨idx, t1⟩ := p
      cases ha : initCentroidsAux src data fuel k (idx :: used) t1 with
      | none => simp [initCentroidsAux, hp, ha] at h
      | some q =>
        obtain ⟨cs', t2'⟩ := q
        simp only [initCentroidsAux, hp, ha] at h
        obtain ⟨rfl, rfl⟩ : data.getD idx ⟨0, 0, 0, 0⟩ :: cs' = cs ∧ t2' = t2 := by
          simpa using h
        obtain ⟨hfresh, hlt⟩ := pickFresh_spec src data.length used fuel t idx t1 hp
        obtain ⟨idxs, hlen, hnd, hnotin, hrange, hcs⟩ := ih (idx :: used) t1 cs' t2' ha
        refine ⟨idx :: idxs, by simp [hlen], ?_, ?_, ?_, by simp [hcs]⟩
        · refine List.nodup_cons.mpr ⟨?_, hnd⟩
          intro hmem
          exact (hnotin idx hmem) (List.mem_cons_self idx used)
        · intro i hi
          rcases List.mem_cons.mp hi with rfl | hi
          · exact hfresh
          · exact fun hu => (hnotin i hi) (List.mem_cons_of_mem idx hu)
        · intro hn i hi
          rcases List.mem_cons.mp hi with rfl | hi
          · exact hlt hn
          · exact hrange hn i hi

/-- C9 amended: whenever the rejection-sampling loop of the centroid
initializer terminates (within some attempt bound) on a non-empty point
set, it returns exactly `k` centroids that are copies of points at `k`
pairwise distinct indices of the input; termination for every random
source, however, fails (see the counterexample). -/
theorem c9_amended (src : ℕ → ℕ) (data : List CPoint) (k fuel : ℕ)
    (cs : List CPoint) (t : ℕ) (hne : data ≠ [])
    (h : initCentroids src data k fuel = some (cs, t)) :
    cs.length = k ∧ ∃ idxs : List ℕ, idxs.length = k ∧ idxs.Nodup ∧
      (∀ i ∈ idxs, i < data.length) ∧
      cs = idxs.map (fun i => data.getD i ⟨0, 0, 0, 0⟩) := by
  have hpos : 0 < data.length := List.length_pos.mpr hne
  obtain ⟨idxs, hlen, hnd, _, hrange, hcs⟩ :=
    initCentroidsAux_spec src data fuel k [] 0 cs t h
  exact ⟨by simp [hcs, hlen], idxs, hlen, hnd, hrange hpos, hcs⟩

/-- C9 witness: two points, `k = 2`, the counting source. -/
theorem c9_witness :
    ([pA, pB] : List CPoint) ≠ [] ∧
    initCentroids srcNat [pA, pB] 2 2 = some ([pA, pB], 2) ∧
    [pA, pB].length = 2 ∧
    (∃ idxs : List ℕ, idxs.length = 2 ∧ idxs.Nodup ∧
      (∀ i ∈ idxs, i < ([pA, pB] : List CPoint).length) ∧
      [pA, pB] = idxs.map (fun i => ([pA, pB] : List CPoint).getD i ⟨0, 0, 0, 0⟩)) := by
  have h := c9_amended srcNat [pA, pB] 2 2 [pA, pB] 2 (by decide)
    (by decide)
  exact ⟨by decide, by decide, h.1, h.2⟩

/-- The constant random source never escapes the do-while rejection loop
once index 0 is taken. -/
theorem pickFresh_srcZero_stuck (fuel : ℕ) : ∀ t, pickFresh srcZero 2 [0] fuel t = none := by
  induction fuel with
  | zero => intro t; rfl
  | succ fuel ih =>
    intro t
    simpa [pickFresh, srcZero] using ih (t + 1)

/-- C9 counterexample: on two points with `k = 2`, the constant random
source keeps drawing index 0 forever, so `initializeCentroids` does not
terminate for every source of random indices — no attempt bound ever
completes it. -/
theorem c9_cex : ¬ initTerminates srcZero [pA, pB] 2 := by
  rintro ⟨fuel, cs, t, h⟩
  unfold initCentroids at h
  cases fuel with
  | zero => simp [initCentroidsAux, pickFresh] at h
  | succ f =>
    have h1 : pickFresh srcZero 2 [] (f + 1) 0 = some (0, 1) := by
      simp [pickFresh, srcZero]
    have h2 : pickFresh srcZero 2 [0] (f + 1) 1 = none := pickFresh_srcZero_stuck (f + 1) 1
    simp [initCentroidsAux, h1, h2] at h

/-- C10: on every input stream, a completed ingestion run satisfies
`processed = valid + invalid` — each processed row is counted exactly once,
as valid (enriched, batched and flushed) or as invalid (rejected). -/
theorem c10_counts (zm : ZMap) (rows : List Row) :
    (ingestRows zm rows).processed = (ingestRows zm rows).valid + (ingestRows zm rows).invalid := by
  have step : ∀ (st : IngestState) (r : Row), st.processed = st.valid + st.invalid →
      (ingestStep zm st r).processed = (ingestStep zm st r).valid + (ingestStep zm st r).invalid := by
    intro st r h
    unfold ingestStep
    cases isValidTrip zm r with
    | rejected reason => dsimp only; omega
    | accepted ctx =>
      dsimp only
      split <;> dsimp only <;> omega
  have key : ∀ (rs : List Row) (st : IngestState), st.processed = st.valid + st.invalid →
      (rs.foldl (ingestStep zm) st).processed
        = (rs.foldl (ingestStep zm) st).valid + (rs.foldl (ingestStep zm) st).invalid := by
    intro rs
    induction rs with
    | nil => intro st h; simpa using h
    | cons r rest ih =>
      intro st h
      simp only [List.foldl_cons]
      exact ih _ (step st r h)
  have base := key rows ⟨0, 0, 0, [], []⟩ rfl
  unfold ingestRows
  dsimp only
  split
  · exact base
  · simpa using base

/-- Rows accepted by the validator carry a rounded duration inside the
enforced window [60, 86400]. -/
theorem accepted_inv (zm : ZMap) (row : Row) (ctx : Ctx)
    (h : isValidTrip zm row = .accepted ctx) :
    60 ≤ ctx.durationSec ∧ ctx.durationSec ≤ 86400 := by
  unfold isValidTrip at h
  repeat' first
  | split at h
  | dsimp only at h
  all_goals cases h
  dsimp only
  constructor <;> omega

/-- C2: for every row accepted by the validator, the enriched speed equals
`min(200, distance_km / (duration_sec / 3600))` with
`distance_km = trip_distance * 1.60934`; in particular it never exceeds
200, and the `0 if duration is 0` branch of the formula is unreachable
because accepted durations are at least 60. -/
theorem c2_speed (zm : ZMap) (row : Row) (ctx : Ctx)
    (h : isValidTrip zm row = .accepted ctx) :
    (enrich zm row ctx).speed_kmh
      = min 200 ((ctx.tripDistance * MILES_TO_KM) / ((ctx.durationSec : ℚ) / 3600)) ∧
    (enrich zm row ctx).speed_kmh ≤ 200 ∧ ctx.durationSec ≠ 0 := by
  have hd := accepted_inv zm row ctx h
  have hz : (0 : ℤ) < ctx.durationSec := by omega
  have hpos : (0 : ℚ) < (ctx.durationSec : ℚ) / 3600 := by
    apply div_pos
    · exact_mod_cast hz
    · norm_num
  unfold enrich
  dsimp only
  rw [if_pos hpos]
  exact ⟨rfl, min_le_left _ _, by omega⟩

/-- C2 witness: the spec section 8 scenario (5 miles in 1200 s). -/
theorem c2_witness :
    isValidTrip zmEx rowEx = .accepted ctxEx ∧
    ((enrich zmEx rowEx ctxEx).speed_kmh
      = min 200 ((ctxEx.tripDistance * MILES_TO_KM) / ((ctxEx.durationSec : ℚ) / 3600)) ∧
     (enrich zmEx rowEx ctxEx).speed_kmh ≤ 200 ∧ ctxEx.durationSec ≠ 0) := by
  have h : isValidTrip zmEx rowEx = .accepted ctxEx := by decide
  exact ⟨h, c2_speed zmEx rowEx ctxEx h⟩

/-- C3: for every row accepted by the validator, the enriched trip is
classified `Cross Borough` exactly when both boroughs looked up from the
zone store are non-empty and differ, and `Within Borough` in every other
case. -/
theorem c3_trip_type (zm : ZMap) (row : Row) (ctx : Ctx)
    (h : isValidTrip zm row = .accepted ctx) :
    ((enrich zm row ctx).trip_type = "Cross Borough" ↔
      (boroughOf zm ctx.pu ≠ "" ∧ boroughOf zm ctx.doLoc ≠ "" ∧
       boroughOf zm ctx.pu ≠ boroughOf zm ctx.doLoc)) ∧
    (¬(boroughOf zm ctx.pu ≠ "" ∧ boroughOf zm ctx.doLoc ≠ "" ∧
       boroughOf zm ctx.pu ≠ boroughOf zm ctx.doLoc) →
      (enrich zm row ctx).trip_type = "Within Borough") := by
  unfold enrich boroughOf
  dsimp only
  split
  · rename_i hc
    exact ⟨⟨fun _ => hc, fun _ => rfl⟩, fun hn => absurd hc hn⟩
  · rename_i hc
    exact ⟨⟨fun he => absurd he (by decide), fun hcond => absurd hcond hc⟩, fun _ => rfl⟩

/-- C3 witness: Manhattan to Queens is classified Cross Borough. -/
theorem c3_witness :
    isValidTrip zmEx rowEx = .accepted ctxEx ∧
    (enrich zmEx rowEx ctxEx).trip_type = "Cross Borough" := by
  have h : isValidTrip zmEx rowEx = .accepted ctxEx := by decide
  exact ⟨h, (c3_trip_type zmEx rowEx ctxEx h).1.mpr (by decide)⟩

/-- C1: the validator applies the seven checks in the fixed order
zone-existence, timestamp, duration, passenger count, trip distance, fare,
total amount; a rejection carries exactly the reason code of the first
failing check (short-circuit), acceptance means no check fails, and in
particular a row whose zones resolve and whose timestamps parse but whose
rounded duration lies outside [60, 86400] is rejected with
`duration_out_of_range`. -/
theorem c1_validator_order (zm : ZMap) (row : Row) :
    (∀ r, isValidTrip zm row = .rejected r ↔ firstFailure zm row = some r) ∧
    (firstFailure zm row = none → ∃ ctx, isValidTrip zm row = .accepted ctx) ∧
    (∀ s, rowDuration row = some s → zoneCheckFails zm row = false →
      (s < 60 ∨ 86400 < s) → isValidTrip zm row = .rejected .duration_out_of_range) := by
  have master : (match firstFailure zm row with
      | some r => isValidTrip zm row = VResult.rejected r
      | none => ∃ ctx, isValidTrip zm row = VResult.accepted ctx) := by
    unfold firstFailure checksInOrder isValidTrip zoneCheckFails timestampCheckFails
      durationCheckFails rowDuration passengerCheckFails distanceCheckFails
      fareCheckFails totalCheckFails
    cases hpu : parseIntVal row.PULocationID with
    | none => simp [List.find?]
    | some pu =>
      cases hdo : parseIntVal row.DOLocationID with
      | none => simp [List.find?]
      | some doLoc =>
        cases h1 : zmHas zm pu with
        | false => simp [List.find?, h1]
        | true =>
          cases h2 : zmHas zm doLoc with
          | false => simp [List.find?, h1, h2]
          | true =>
            cases hts1 : parseTs row.tpep_pickup_datetime with
            | none => simp [List.find?, h1, h2, hts1]
            | some p =>
              cases hts2 : parseTs row.tpep_dropoff_datetime with
              | none => simp [List.find?, h1, h2, hts1, hts2]
              | some d =>
                by_cases hdur : jsRound (((d : ℚ) - (p : ℚ)) / 1000) < 60
                    ∨ 86400 < jsRound (((d : ℚ) - (p : ℚ)) / 1000)
                · simp [List.find?, h1, h2, hts1, hts2, hdur]
                · by_cases hps : (parseIntVal row.passenger_count).getD (-1) < 0
                      ∨ 9 < (parseIntVal row.passenger_count).getD (-1)
                  · simp [List.find?, h1, h2, hts1, hts2, hdur, hps]
                  · by_cases hdist : (parseNumVal row.trip_distance).getD (-1) < 0
                        ∨ 500 < (parseNumVal row.trip_distance).getD (-1)
                    · simp [List.find?, h1, h2, hts1, hts2, hdur, hps, hdist]
                    · by_cases hfare : (parseNumVal row.fare_amount).getD (-1) < 0
                          ∨ 10000 < (parseNumVal row.fare_amount).getD (-1)
                      · simp [List.find?, h1, h2, hts1, hts2, hdur, hps, hdist, hfare]
                      · by_cases htot : (parseNumVal row.total_amount).getD (-1) < 0
                            ∨ 10000 < (parseNumVal row.total_amount).getD (-1)
                        · simp [List.find?, h1, h2, hts1, hts2, hdur, hps, hdist, hfare, htot]
                        · simp [List.find?, h1, h2, hts1, hts2, hdur, hps, hdist, hfare, htot]
  have hA : ∀ r, isValidTrip zm row = .rejected r ↔ firstFailure zm row = some r := by
    intro r
    constructor
    · intro h
      cases hff : firstFailure zm row with
      | none =>
        rw [hff] at master
        obtain ⟨ctx, hc⟩ := master
        rw [h] at hc
        cases hc
      | some r' =>
        rw [hff] at master
        rw [master] at h
        injection h with hr
        subst hr
        rfl
    · intro hff
      rw [hff] at master
      exact master
  refine ⟨hA, ?_, ?_⟩
  · intro hff
    rw [hff] at master
    exact master
  · intro s hs hzone hout
    have hts : timestampCheckFails row = false := by
      unfold rowDuration at hs
      unfold timestampCheckFails
      cases hts1 : parseTs row.tpep_pickup_datetime with
      | none => rw [hts1] at hs; simp at hs
      | some p =>
        cases hts2 : parseTs row.tpep_dropoff_datetime with
        | none => rw [hts1, hts2] at hs; simp at hs
        | some d => simp
    have hdurf : durationCheckFails row = true := by
      unfold durationCheckFails
      rw [hs]
      simp [hout]
    have hff : firstFailure zm row = some .duration_out_of_range := by
      unfold firstFailure checksInOrder
      simp [List.find?, hzone, hts, hdurf]
    exact (hA _).mpr hff

/-- C1 witness: the 30-second-trip exclusion scenario of spec section 8. -/
theorem c1_witness :
    rowDuration rowShort = some 30 ∧
    zoneCheckFails zmEx rowShort = false ∧
    isValidTrip zmEx rowShort = .rejected .duration_out_of_range :=
  ⟨by decide, by decide,
   (c1_validator_order zmEx rowShort).2.2 30 (by decide) (by decide) (Or.inl (by decide))⟩

/-- Lists of zone rows related entry by entry: same key everywhere, and
identical entries wherever the key differs from `id`. -/
def eqOffL (id : ℤ) (s1 s2 : List (ℤ × ZoneRec)) : Prop :=
  List.Forall₂ (fun a b => a.1 = b.1 ∧ (a.1 ≠ id → a = b)) s1 s2

/-- Fold of plain upserts over already-parsed (key, record) pairs. -/
def upsertFold (t : List (ℤ × ZoneRec)) (ps : List (ℤ × ZoneRec)) : List (ℤ × ZoneRec) :=
  ps.foldl (fun t p => upsertZone t p.1 p.2) t

/-- Every entry with key `id` carries record `z`. -/
def idVal (t : List (ℤ × ZoneRec)) (id : ℤ) (z : ZoneRec) : Prop :=
  ∀ e ∈ t, e.1 = id → e.2 = z

theorem any_key_iff (t : List (ℤ × ZoneRec)) (id : ℤ) :
    (t.any fun e => decide (e.1 = id)) = true ↔ id ∈ t.map Prod.fst := by
  simp

theorem upsert_map_fst_present (t : List (ℤ × ZoneRec)) (id : ℤ) (z : ZoneRec)
    (h : id ∈ t.map Prod.fst) :
    (upsertZone t id z).map Prod.fst = t.map Prod.fst := by
  unfold upsertZone
  rw [if_pos ((any_key_iff t id).mpr h)]
  rw [List.map_map]
  apply List.map_congr_left
  intro e _
  by_cases hc : e.1 = id
  · simp [hc]
  · simp [hc]

theorem upsert_map_fst_absent (t : List (ℤ × ZoneRec)) (id : ℤ) (z : ZoneRec)
    (h : id ∉ t.map Prod.fst) :
    (upsertZone t id z).map Prod.fst = t.map Prod.fst ++ [id] := by
  unfold upsertZone
  rw [if_neg (fun hc => h ((any_key_iff t id).mp hc))]
  simp

theorem mem_keys_upsert_self (t : List (ℤ × ZoneRec)) (id : ℤ) (z : ZoneRec) :
    id ∈ (upsertZone t id z).map Prod.fst := by
  by_cases h : id ∈ t.map Prod.fst
  · rw [upsert_map_fst_present t id z h]; exact h
  · rw [upsert_map_fst_absent t id z h]; simp

theorem mem_keys_upsert_mono (t : List (ℤ × ZoneRec)) (id a : ℤ) (z : ZoneRec)
    (h : a ∈ t.map Prod.fst) : a ∈ (upsertZone t id z).map Prod.fst := by
  by_cases hp : id ∈ t.map Prod.fst
  · rw [upsert_map_fst_present t id z hp]; exact h
  · rw [upsert_map_fst_absent t id z hp]; exact List.mem_append_left _ h

theorem mem_keys_fold (ps : List (ℤ × ZoneRec)) :
    ∀ (t : List (ℤ × ZoneRec)) (a : ℤ), a ∈ t.map Prod.fst →
      a ∈ (upsertFold t ps).map Prod.fst := by
  induction ps with
  | nil => intro t a h; exact h
  | cons p q ih =>
    intro t a h
    exact ih (upsertZone t p.1 p.2) a (mem_keys_upsert_mono t p.1 a p.2 h)

theorem idVal_upsert_self (t : List (ℤ × ZoneRec)) (id : ℤ) (z : ZoneRec) :
    idVal (upsertZone t id z) id z := by
  unfold upsertZone
  split
  · intro e he hk
    obtain ⟨a, _, rfl⟩ := List.mem_map.mp he
    by_cases hc : a.1 = id
    · simp [hc]
    · simp [hc] at hk
  · intro e he hk
    rcases List.mem_append.mp he with h1 | h1
    · rename_i hna
      exfalso
      exact hna (List.any_eq_true.mpr ⟨e, h1, by simpa using hk⟩)
    · simp at h1; simp [h1]

theorem idVal_upsert_other (t : List (ℤ × ZoneRec)) (id id' : ℤ) (z z' : ZoneRec)
    (hne : id' ≠ id) (h : idVal t id z) : idVal (upsertZone t id' z') id z := by
  unfold upsertZone
  split
  · intro e he hk
    obtain ⟨a, ha, rfl⟩ := List.mem_map.mp he
    by_cases hc : a.1 = id'
    · simp [hc] at hk ⊢; exact absurd hk hne
    · simp [hc] at hk ⊢; exact h a ha hk
  · intro e he hk
    rcases List.mem_append.mp he with h1 | h1
    · exact h e h1 hk
    · simp at h1
      rw [h1] at hk
      simp at hk
      exact absurd hk hne

theorem idVal_fold (ps : List (ℤ × ZoneRec)) :
    ∀ (t : List (ℤ × ZoneRec)) (id : ℤ) (z : ZoneRec),
      (∀ p ∈ ps, p.1 ≠ id) → idVal t id z → idVal (upsertFold t ps) id z := by
  induction ps with
  | nil => intro t id z _ h; exact h
  | cons p q ih =>
    intro t id z hq h
    exact ih (upsertZone t p.1 p.2) id z (fun x hx => hq x (List.mem_cons_of_mem p hx))
      (idVal_upsert_other t id p.1 z p.2 (hq p (List.mem_cons_self p q)) h)

theorem upsert_fix (t : List (ℤ × ZoneRec)) (id : ℤ) (z : ZoneRec)
    (hmem : id ∈ t.map Prod.fst) (hval : idVal t id z) :
    upsertZone t id z = t := by
  unfold upsertZone
  rw [if_pos ((any_key_iff t id).mpr hmem)]
  have : ∀ e ∈ t, (if e.1 = id then (id, z) else e) = e := by
    intro e he
    by_cases hc : e.1 = id
    · rw [if_pos hc]
      have h2 := hval e he hc
      cases e with
      | mk k v => simp at hc h2; rw [hc, h2]
    · rw [if_neg hc]
  rw [List.map_congr_left this]
  simp

theorem eqOffL_keys (id : ℤ) (s1 s2 : List (ℤ × ZoneRec)) (h : eqOffL id s1 s2) :
    s1.map Prod.fst = s2.map Prod.fst := by
  induction h with
  | nil => rfl
  | @cons a b l1 l2 ha hrest ih => simp [ha.1, ih]

theorem eqOffL_eq_of_absent (id : ℤ) (s1 s2 : List (ℤ × ZoneRec)) (h : eqOffL id s1 s2)
    (habs : id ∉ s1.map Prod.fst) : s1 = s2 := by
  induction h with
  | nil => rfl
  | @cons a b l1 l2 ha hrest ih =>
    have h1 : a.1 ≠ id := by
      intro hc
      exact habs (by simp [hc])
    have h2 : id ∉ l1.map Prod.fst := by
      intro hc
      exact habs (List.mem_cons_of_mem _ hc)
    rw [ha.2 h1, ih h2]

theorem eqOffL_upsert_same (id : ℤ) (z : ZoneRec) (s1 s2 : List (ℤ × ZoneRec))
    (h : eqOffL id s1 s2) : upsertZone s1 id z = upsertZone s2 id z := by
  by_cases hp : id ∈ s1.map Prod.fst
  · have hp2 : id ∈ s2.map Prod.fst := by rw [← eqOffL_keys id s1 s2 h]; exact hp
    unfold upsertZone
    rw [if_pos ((any_key_iff s1 id).mpr hp), if_pos ((any_key_iff s2 id).mpr hp2)]
    clear hp hp2
    induction h with
    | nil => rfl
    | @cons a b l1 l2 ha hrest ih =>
      simp only [List.map_cons]
      congr 1
      · by_cases hc : a.1 = id
        · have hb : b.1 = id := by rw [← ha.1]; exact hc
          rw [if_pos hc, if_pos hb]
        · have hb : ¬b.1 = id := by rw [← ha.1]; exact hc
          rw [if_neg hc, if_neg hb, ha.2 hc]
  · rw [eqOffL_eq_of_absent id s1 s2 h hp]

theorem eqOffL_upsert_other (id id' : ℤ) (z' : ZoneRec) (s1 s2 : List (ℤ × ZoneRec))
    (h : eqOffL id s1 s2) :
    eqOffL id (upsertZone s1 id' z') (upsertZone s2 id' z') := by
  by_cases hp : id' ∈ s1.map Prod.fst
  · have hp2 : id' ∈ s2.map Prod.fst := by rw [← eqOffL_keys id s1 s2 h]; exact hp
    unfold upsertZone
    rw [if_pos ((any_key_iff s1 id').mpr hp), if_pos ((any_key_iff s2 id').mpr hp2)]
    clear hp hp2
    induction h with
    | nil => exact List.Forall₂.nil
    | @cons a b l1 l2 ha hrest ih =>
      simp only [List.map_cons]
      refine List.Forall₂.cons ?_ ih
      by_cases hc : a.1 = id'
      · have hb : b.1 = id' := by rw [← ha.1]; exact hc
        rw [if_pos hc, if_pos hb]
        exact ⟨rfl, fun _ => rfl⟩
      · have hb : ¬b.1 = id' := by rw [← ha.1]; exact hc
        rw [if_neg hc, if_neg hb]
        exact ha
  · have hp2 : id' ∉ s2.map Prod.fst := by rw [← eqOffL_keys id s1 s2 h]; exact hp
    unfold upsertZone
    rw [if_neg (fun hc => hp ((any_key_iff s1 id').mp hc)),
        if_neg (fun hc => hp2 ((any_key_iff s2 id').mp hc))]
    induction h with
    | nil => exact List.Forall₂.cons ⟨rfl, fun _ => rfl⟩ List.Forall₂.nil
    | @cons a b l1 l2 ha hrest ih =>
      exact List.Forall₂.cons ha (ih (fun hc => hp (List.mem_cons_of_mem _ hc))
        (fun hc => hp2 (List.mem_cons_of_mem _ hc)))

theorem eqOffL_upsert_self (id : ℤ) (z : ZoneRec) (s : List (ℤ × ZoneRec))
    (hp : id ∈ s.map Prod.fst) : eqOffL id (upsertZone s id z) s := by
  unfold upsertZone
  rw [if_pos ((any_key_iff s id).mpr hp)]
  clear hp
  induction s with
  | nil => exact List.Forall₂.nil
  | cons a l ih =>
    simp only [List.map_cons]
    refine List.Forall₂.cons ?_ ih
    by_cases hc : a.1 = id
    · rw [if_pos hc]
      exact ⟨hc.symm, fun hne => absurd rfl hne⟩
    · rw [if_neg hc]
      exact ⟨rfl, fun _ => rfl⟩

theorem eqOffL_fold (id : ℤ) (ps : List (ℤ × ZoneRec)) :
    ∀ (s1 s2 : List (ℤ × ZoneRec)), eqOffL id s1 s2 → id ∈ ps.map Prod.fst →
      upsertFold s1 ps = upsertFold s2 ps := by
  induction ps with
  | nil =>
    intro s1 s2 _ hm
    simp at hm
  | cons p q ih =>
    intro s1 s2 h hm
    show upsertFold (upsertZone s1 p.1 p.2) q = upsertFold (upsertZone s2 p.1 p.2) q
    by_cases hc : p.1 = id
    · have heq : upsertZone s1 p.1 p.2 = upsertZone s2 p.1 p.2 := by
        rw [hc]
        exact eqOffL_upsert_same id p.2 s1 s2 h
      rw [heq]
    · have h' := eqOffL_upsert_other id p.1 p.2 s1 s2 h
      have hm' : id ∈ q.map Prod.fst := by
        rw [List.map_cons] at hm
        rcases List.mem_cons.mp hm with h1 | h1
        · exact absurd h1.symm hc
        · exact h1
      exact ih _ _ h' hm'

theorem upsertFold_idem (ps : List (ℤ × ZoneRec)) :
    ∀ t, upsertFold (upsertFold t ps) ps = upsertFold t ps := by
  induction ps with
  | nil => intro t; rfl
  | cons p q ih =>
    intro t
    obtain ⟨id, z⟩ := p
    have hidT' : id ∈ (upsertFold (upsertZone t id z) q).map Prod.fst :=
      mem_keys_fold q (upsertZone t id z) id (mem_keys_upsert_self t id z)
    show upsertFold (upsertZone (upsertFold (upsertZone t id z) q) id z) q
        = upsertFold (upsertZone t id z) q
    by_cases hq : id ∈ q.map Prod.fst
    · rw [eqOffL_fold id q _ _ (eqOffL_upsert_self id z _ hidT') hq]
      exact ih (upsertZone t id z)
    · have hneq : ∀ x ∈ q, x.1 ≠ id := by
        intro x hx hcc
        exact hq (hcc ▸ List.mem_map_of_mem Prod.fst hx)
      rw [upsert_fix _ id z hidT'
        (idVal_fold q (upsertZone t id z) id z hneq (idVal_upsert_self t id z))]
      exact ih (upsertZone t id z)

theorem keys_nodup_upsert (t : List (ℤ × ZoneRec)) (id : ℤ) (z : ZoneRec)
    (h : (t.map Prod.fst).Nodup) : ((upsertZone t id z).map Prod.fst).Nodup := by
  by_cases hp : id ∈ t.map Prod.fst
  · rw [upsert_map_fst_present t id z hp]
    exact h
  · rw [upsert_map_fst_absent t id z hp]
    rw [List.nodup_append]
    exact ⟨h, List.nodup_singleton id, by
      intro a ha hb
      simp at hb
      rw [hb] at ha
      exact hp ha⟩

theorem keys_nodup_fold (ps : List (ℤ × ZoneRec)) :
    ∀ t, (t.map Prod.fst).Nodup → ((upsertFold t ps).map Prod.fst).Nodup := by
  induction ps with
  | nil => intro t h; exact h
  | cons p q ih =>
    intro t h
    exact ih (upsertZone t p.1 p.2) (keys_nodup_upsert t p.1 p.2 h)

/-- The parsed (location id, trimmed record) pairs of a lookup source, in
row order, skipping non-numeric ids. -/
def parsedPairs (rows : List LookupRow) : List (ℤ × ZoneRec) :=
  rows.filterMap (fun r => (r.LocationID.bind parseIntJS).map
    (fun id => (id, ⟨strField r.Borough, strField r.Zone, strField r.service_zone⟩)))

theorem load_eq_fold (rows : List LookupRow) :
    ∀ t, (loadZonesFromLookup t rows).1 = upsertFold t (parsedPairs rows) := by
  induction rows with
  | nil => intro t; rfl
  | cons r q ih =>
    intro t
    cases hid : r.LocationID.bind parseIntJS with
    | none =>
      show ((r :: q).foldl applyLookupRow t) = _
      rw [List.foldl_cons]
      have ha : applyLookupRow t r = t := by
        unfold applyLookupRow
        rw [hid]
      rw [ha]
      have hp : parsedPairs (r :: q) = parsedPairs q := by
        unfold parsedPairs
        rw [List.filterMap_cons]
        simp [hid]
      rw [hp]
      exact ih t
    | some id =>
      show ((r :: q).foldl applyLookupRow t) = _
      rw [List.foldl_cons]
      have ha : applyLookupRow t r
          = upsertZone t id ⟨strField r.Borough, strField r.Zone, strField r.service_zone⟩ := by
        unfold applyLookupRow
        rw [hid]
      rw [ha]
      have hp : parsedPairs (r :: q)
          = (id, (⟨strField r.Borough, strField r.Zone, strField r.service_zone⟩ : ZoneRec))
            :: parsedPairs q := by
        unfold parsedPairs
        rw [List.filterMap_cons]
        simp [hid]
      rw [hp]
      exact ih (upsertZone t id ⟨strField r.Borough, strField r.Zone, strField r.service_zone⟩)

/-- C7: re-running zone ingestion (`loadZonesFromLookup`) a second time
with an unchanged lookup source yields a zone table identical to the first
run (same rows, same order, same values), and the table never holds a
duplicated `location_id`: the unique-key conflict updates the existing row
instead of inserting a new one. -/
theorem c7_zone_idempotent (rows : List LookupRow) :
    (loadZonesFromLookup (loadZonesFromLookup [] rows).1 rows).1
      = (loadZonesFromLookup [] rows).1 ∧
    (((loadZonesFromLookup [] rows).1).map Prod.fst).Nodup := by
  constructor
  · rw [load_eq_fold rows (loadZonesFromLookup [] rows).1, load_eq_fold rows []]
    exact upsertFold_idem (parsedPairs rows) []
  · rw [load_eq_fold rows []]
    exact keys_nodup_fold (parsedPairs rows) [] (by simp)

/-- C8 counterexample: a lookup source consisting of one row with the
non-numeric `LocationID` "N/A" loads nothing into the zone store, yet
`loadZonesFromLookup` returns 1 — the function returns the raw row count of
the source, not the number of zones loaded. -/
theorem c8_cex :
    (loadZonesFromLookup [] [badLookupRow]).1 = [] ∧
    (loadZonesFromLookup [] [badLookupRow]).2 = 1 ∧
    (1 : ℕ) ≠ (([] : List (ℤ × ZoneRec)).length) := by decide

/-- C8 amended: rows with non-numeric `location_id` are silently skipped
and contribute nothing to the zone store, and `loadZonesFromLookup` returns
the total number of rows read from the lookup source — including the
skipped ones — rather than the number of zones loaded. -/
theorem c8_amended (tbl : List (ℤ × ZoneRec)) (rows : List LookupRow) :
    (loadZonesFromLookup tbl rows).2 = rows.length ∧
    (∀ (r : LookupRow) (rest : List LookupRow), r.LocationID.bind parseIntJS = none →
      (loadZonesFromLookup tbl (r :: rest)).1 = (loadZonesFromLookup tbl rest).1) := by
  refine ⟨rfl, ?_⟩
  intro r rest hr
  show ((r :: rest).foldl applyLookupRow tbl) = (rest.foldl applyLookupRow tbl)
  rw [List.foldl_cons]
  have ha : applyLookupRow tbl r = tbl := by
    unfold applyLookupRow
    rw [hr]
  rw [ha]

theorem c8_witness :
    (loadZonesFromLookup [] [badLookupRow]).2 = [badLookupRow].length ∧
    badLookupRow.LocationID.bind parseIntJS = none ∧
    (loadZonesFromLookup [] [badLookupRow, badLookupRow]).1
      = (loadZonesFromLookup [] [badLookupRow]).1 := by
  have h := c8_amended [] [badLookupRow]
  exact ⟨h.1, by decide, h.2 badLookupRow [badLookupRow] (by decide)⟩

end Taxi
